import Mathlib

/-!
Verification development for the Smart Scheduler core
(`src/agent/calendar_integration.py`, `src/agent/time_parser.py`,
`src/agent/conversation_manager.py`, `src/agent/state_manager.py`).

Shallow embedding conventions:
* datetimes are whole minutes since an epoch whose day 0 is a Monday, so
  `t / 1440` is the calendar date ordinal and `t / 1440 % 7` is Python's
  `datetime.weekday()` (Monday = 0);
* busy intervals are `(start, end)` pairs of such minute timestamps;
* Python floats used for confidences (all multiples of 0.1 in the source)
  are stored scaled by ten, as naturals;
* external collaborators (the `dateparser` library, `dateutil.relativedelta`
  month arithmetic, the Google-calendar event lookup and event creation) are
  parameters of the embedded functions.
-/

namespace SmartScheduler

/-- Calendar date ordinal of a minute timestamp (`datetime.date()`). -/
def dateOf (t : Nat) : Nat := t / 1440

/-- Python `datetime.weekday()`: Monday = 0 ... Sunday = 6 (epoch day 0 is a Monday). -/
def weekdayOf (t : Nat) : Nat := dateOf t % 7

/-- Python `datetime.hour` of a minute timestamp. -/
def hourOf (t : Nat) : Nat := t % 1440 / 60

/-- Python `t.replace(hour := h, minute := 0, second := 0, microsecond := 0)`
for a whole-minute timestamp (valid for `h ≤ 23`). -/
def replaceHour (t h : Nat) : Nat := dateOf t * 1440 + h * 60

/-- `TimeSlot` from `calendar_integration.py` (lines 48-59): the constructor
stores both endpoints and computes `duration_minutes` from them. -/
structure TimeSlot where
  start_time : Nat
  end_time : Nat
  duration_minutes : Int
  deriving Repr, DecidableEq

/-- `TimeSlot.__init__`: `duration_minutes = int((end_time - start_time).total_seconds() / 60)`. -/
def mkTimeSlot (s e : Nat) : TimeSlot :=
  { start_time := s, end_time := e, duration_minutes := (e : Int) - (s : Int) }

/-- Day filter of `_find_slots_for_day` (lines 225-228): a busy interval is
considered for a day when it starts on it, ends on it, or spans it. -/
def busyOnDay (dayStart : Nat) (b : Nat × Nat) : Bool :=
  dateOf b.1 == dateOf dayStart || dateOf b.2 == dateOf dayStart ||
    (decide (dateOf b.1 < dateOf dayStart) && decide (dateOf dayStart < dateOf b.2))

/-- Clipping of `_find_slots_for_day` (lines 231-232): clamp a busy interval
to the day's working window. -/
def clipToDay (dayStart dayEnd : Nat) (b : Nat × Nat) : Nat × Nat :=
  (max b.1 dayStart, min b.2 dayEnd)

/-- Stable insertion by interval start, modelling
`day_busy_times.sort(key = lambda x: x[0])`. -/
def insertByStart (b : Nat × Nat) : List (Nat × Nat) → List (Nat × Nat)
  | [] => [b]
  | c :: rest => if b.1 ≤ c.1 then b :: c :: rest else c :: insertByStart b rest

/-- Stable sort by interval start (Python `list.sort` is stable). -/
def sortByStart : List (Nat × Nat) → List (Nat × Nat)
  | [] => []
  | b :: rest => insertByStart b (sortByStart rest)

/-- Cursor walk of `_find_slots_for_day` (lines 239-252): for each busy
interval in order, emit one slot when the gap before it is at least
`duration + buffer`, then advance the cursor past `busy_end + buffer`.
Returns the emitted slots and the final cursor. -/
def slotWalk (dur buf : Nat) : Nat → List (Nat × Nat) → List TimeSlot × Nat
  | cursor, [] => ([], cursor)
  | cursor, (bs, be) :: rest =>
    let emitted :=
      if cursor < bs ∧ dur + buf ≤ bs - cursor then [mkTimeSlot cursor (cursor + dur)] else []
    let tail := slotWalk dur buf (max cursor (be + buf)) rest
    (emitted ++ tail.1, tail.2)

/-- `GoogleCalendarService._find_slots_for_day` (lines 217-263): filter and
clip the busy intervals to the day, sort them, walk the gaps, then emit one
trailing slot when the rest of the day fits the duration. -/
def find_slots_for_day (dayStart dayEnd : Nat) (busy : List (Nat × Nat))
    (dur buf : Nat) : List TimeSlot :=
  let dayBusy := (busy.filter (busyOnDay dayStart)).map (clipToDay dayStart dayEnd)
  let walked := slotWalk dur buf dayStart (sortByStart dayBusy)
  walked.1 ++
    (if walked.2 < dayEnd ∧ dur ≤ dayEnd - walked.2
      then [mkTimeSlot walked.2 (walked.2 + dur)] else [])

/-- `GoogleCalendarService.find_available_slots` (lines 177-215): iterate the
calendar days of `[start_date, end_date]`, skip weekends, and collect each
weekday's slots; the busy list is the one returned for the whole window. -/
def find_available_slots (dur : Nat) (startDate endDate : Nat)
    (workHoursStart workHoursEnd buf : Nat) (busy : List (Nat × Nat)) : List TimeSlot :=
  (List.range (dateOf endDate + 1 - dateOf startDate)).flatMap (fun i =>
    let d := dateOf startDate + i
    if 5 ≤ d % 7 then []
    else find_slots_for_day (d * 1440 + workHoursStart * 60) (d * 1440 + workHoursEnd * 60)
      busy dur buf)

/-- Every slot emitted by the cursor walk starts at or after the initial
cursor, has length exactly `dur`, and ends at least `buf` minutes before the
start of one of the walked (clipped) busy intervals. -/
theorem slotWalk_mem (dur buf : Nat) :
    ∀ (l : List (Nat × Nat)) (cursor : Nat) (s : TimeSlot),
      s ∈ (slotWalk dur buf cursor l).1 →
      cursor ≤ s.start_time ∧ s.end_time = s.start_time + dur ∧
        ∃ b ∈ l, s.start_time + dur + buf ≤ b.1 := by
  intro l
  induction l with
  | nil => intro cursor s hs; simp [slotWalk] at hs
  | cons b rest ih =>
    intro cursor s hs
    obtain ⟨bs, be⟩ := b
    simp only [slotWalk, List.mem_append] at hs
    rcases hs with hs | hs
    · by_cases hgap : cursor < bs ∧ dur + buf ≤ bs - cursor
      · simp only [if_pos hgap, List.mem_singleton] at hs
        subst hs
        refine ⟨le_refl _, rfl, ⟨(bs, be), by simp, ?_⟩⟩
        simp only [mkTimeSlot]
        omega
      · simp [if_neg hgap] at hs
    · obtain ⟨h1, h2, bb, hbb, h3⟩ := ih (max cursor (be + buf)) s hs
      exact ⟨le_trans (le_max_left _ _) h1, h2, bb, List.mem_cons_of_mem _ hbb, h3⟩

/-- The walk's cursor never moves backwards. -/
theorem slotWalk_cursor_le (dur buf : Nat) :
    ∀ (l : List (Nat × Nat)) (cursor : Nat), cursor ≤ (slotWalk dur buf cursor l).2 := by
  intro l
  induction l with
  | nil => intro cursor; simp [slotWalk]
  | cons b rest ih =>
    intro cursor
    obtain ⟨bs, be⟩ := b
    simpa [slotWalk] using le_trans (le_max_left cursor (be + buf)) (ih _)

/-- Membership is preserved by the stable insertion. -/
theorem mem_insertByStart (b c : Nat × Nat) (l : List (Nat × Nat)) :
    c ∈ insertByStart b l ↔ c = b ∨ c ∈ l := by
  induction l with
  | nil => simp [insertByStart]
  | cons d rest ih =>
    by_cases h : b.1 ≤ d.1
    · simp [insertByStart, if_pos h]
    · simp [insertByStart, if_neg h, ih]
      tauto

/-- Membership is preserved by the stable sort. -/
theorem mem_sortByStart (c : Nat × Nat) (l : List (Nat × Nat)) :
    c ∈ sortByStart l ↔ c ∈ l := by
  induction l with
  | nil => simp [sortByStart]
  | cons d rest ih => simp [sortByStart, mem_insertByStart, ih]

/-- Bounds for the per-day search: every slot starts at or after the day's
work start and has length exactly `dur`; when every busy interval considered
for the day has a clipped start at or before the day's work end, every slot
also ends at or before the day's work end. -/
theorem find_slots_for_day_bounds (dayStart dayEnd dur buf : Nat)
    (busy : List (Nat × Nat))
    (hclip : ∀ b ∈ busy, busyOnDay dayStart b = true →
      max b.1 dayStart ≤ dayEnd) :
    ∀ s ∈ find_slots_for_day dayStart dayEnd busy dur buf,
      dayStart ≤ s.start_time ∧ s.end_time = s.start_time + dur ∧
        s.end_time ≤ dayEnd := by
  intro s hs
  simp only [find_slots_for_day, List.mem_append] at hs
  rcases hs with hs | hs
  · obtain ⟨h1, h2, bb, hbb, h3⟩ := slotWalk_mem dur buf _ dayStart s hs
    refine ⟨h1, h2, ?_⟩
    rw [mem_sortByStart] at hbb
    simp only [List.mem_map, List.mem_filter] at hbb
    obtain ⟨b0, ⟨hb0mem, hb0day⟩, hb0eq⟩ := hbb
    have hb1 : bb.1 = max b0.1 dayStart := by rw [← hb0eq]; rfl
    have := hclip b0 hb0mem hb0day
    omega
  · have hcur : dayStart ≤ (slotWalk dur buf dayStart (sortByStart
        ((busy.filter (busyOnDay dayStart)).map (clipToDay dayStart dayEnd)))).2 :=
      slotWalk_cursor_le dur buf _ dayStart
    rcases hw : slotWalk dur buf dayStart (sortByStart
        ((busy.filter (busyOnDay dayStart)).map (clipToDay dayStart dayEnd))) with ⟨slots, cursor⟩
    rw [hw] at hs hcur
    simp only at hs hcur
    by_cases hc : cursor < dayEnd ∧ dur ≤ dayEnd - cursor
    · rw [if_pos hc, List.mem_singleton] at hs
      subst hs
      refine ⟨hcur, rfl, ?_⟩
      show cursor + dur ≤ dayEnd
      omega
    · rw [if_neg hc] at hs
      simp at hs

/-- Every slot emitted by the cursor walk is a `TimeSlot` built from some
cursor position `c` with endpoints `c` and `c + dur`. -/
theorem slotWalk_shape (dur buf : Nat) :
    ∀ (l : List (Nat × Nat)) (cursor : Nat) (s : TimeSlot),
      s ∈ (slotWalk dur buf cursor l).1 → ∃ c, s = mkTimeSlot c (c + dur) := by
  intro l
  induction l with
  | nil => intro cursor s hs; simp [slotWalk] at hs
  | cons b rest ih =>
    intro cursor s hs
    obtain ⟨bs, be⟩ := b
    simp only [slotWalk, List.mem_append] at hs
    rcases hs with hs | hs
    · by_cases hgap : cursor < bs ∧ dur + buf ≤ bs - cursor
      · simp only [if_pos hgap, List.mem_singleton] at hs
        exact ⟨cursor, hs⟩
      · simp [if_neg hgap] at hs
    · exact ih (max cursor (be + buf)) s hs

/-- Every slot returned by the per-day search is a `TimeSlot` built as
`[c, c + dur]` for some cursor position `c`. -/
theorem find_slots_for_day_shape (dayStart dayEnd dur buf : Nat)
    (busy : List (Nat × Nat)) :
    ∀ s ∈ find_slots_for_day dayStart dayEnd busy dur buf,
      ∃ c, s = mkTimeSlot c (c + dur) := by
  intro s hs
  simp only [find_slots_for_day, List.mem_append] at hs
  rcases hs with hs | hs
  · exact slotWalk_shape dur buf _ dayStart s hs
  · rcases hw : slotWalk dur buf dayStart (sortByStart
        ((busy.filter (busyOnDay dayStart)).map (clipToDay dayStart dayEnd))) with ⟨slots, cursor⟩
    rw [hw] at hs
    simp only at hs
    by_cases hc : cursor < dayEnd ∧ dur ≤ dayEnd - cursor
    · rw [if_pos hc, List.mem_singleton] at hs
      exact ⟨cursor, hs⟩
    · rw [if_neg hc] at hs
      simp at hs

/-- C3: every slot returned by `find_available_slots` with a positive
requested duration `dur` has `duration_minutes = dur`, which equals the
difference of its endpoints in minutes and is therefore positive. -/
theorem returned_slots_have_requested_duration
    (dur startDate endDate ws we buf : Nat) (busy : List (Nat × Nat))
    (hdur : 0 < dur) (s : TimeSlot)
    (hs : s ∈ find_available_slots dur startDate endDate ws we buf busy) :
    s.duration_minutes = (dur : Int) ∧
      (s.end_time : Int) - (s.start_time : Int) = s.duration_minutes ∧
      0 < s.duration_minutes := by
  simp only [find_available_slots, List.mem_flatMap, List.mem_range] at hs
  obtain ⟨i, _, hsd⟩ := hs
  by_cases hwk : 5 ≤ (dateOf startDate + i) % 7
  · rw [if_pos hwk] at hsd; simp at hsd
  · rw [if_neg hwk] at hsd
    obtain ⟨c, rfl⟩ := find_slots_for_day_shape _ _ dur buf busy s hsd
    refine ⟨by simp [mkTimeSlot], by simp [mkTimeSlot], by simp [mkTimeSlot]; omega⟩

/-- C3 witness: Scenario A instantiation of
`returned_slots_have_requested_duration` at the slot 9:00-9:30. -/
theorem returned_slots_have_requested_duration_witness :
    0 < 30 ∧
      mkTimeSlot 540 570 ∈
        find_available_slots 30 540 1020 9 17 15 [(600, 660), (840, 930)] ∧
      ((mkTimeSlot 540 570).duration_minutes = (30 : Int) ∧
        ((mkTimeSlot 540 570).end_time : Int) - ((mkTimeSlot 540 570).start_time : Int) =
          (mkTimeSlot 540 570).duration_minutes ∧
        0 < (mkTimeSlot 540 570).duration_minutes) :=
  ⟨by decide, by decide,
    returned_slots_have_requested_duration 30 540 1020 9 17 15 [(600, 660), (840, 930)]
      (by decide) (mkTimeSlot 540 570) (by decide)⟩

/-- C4 (amended): every slot returned by `find_available_slots` starts at or
after the work start of its own calendar day, and -- provided the work hours
are a valid non-empty window (`ws ≤ we ≤ 23`) and every busy interval is
well-formed (`start ≤ end`) with a start no later than the work-end hour of
its own day -- ends at or before the work end of that day.  Without the
proviso on busy starts the code can emit a slot past the work end
(see `slot_past_work_end`). -/
theorem slots_stay_within_work_hours
    (dur startDate endDate ws we buf : Nat) (busy : List (Nat × Nat))
    (hwswe : ws ≤ we) (hwe : we ≤ 23)
    (hbusy : ∀ b ∈ busy, b.1 ≤ b.2 ∧ b.1 % 1440 ≤ we * 60)
    (s : TimeSlot)
    (hs : s ∈ find_available_slots dur startDate endDate ws we buf busy) :
    dateOf s.start_time * 1440 + ws * 60 ≤ s.start_time ∧
      s.end_time ≤ dateOf s.start_time * 1440 + we * 60 := by
  simp only [find_available_slots, List.mem_flatMap, List.mem_range] at hs
  obtain ⟨i, _, hsd⟩ := hs
  by_cases hwk : 5 ≤ (dateOf startDate + i) % 7
  · rw [if_pos hwk] at hsd; simp at hsd
  · rw [if_neg hwk] at hsd
    set d := dateOf startDate + i with hd
    have hclip : ∀ b ∈ busy, busyOnDay (d * 1440 + ws * 60) b = true →
        max b.1 (d * 1440 + ws * 60) ≤ d * 1440 + we * 60 := by
      intro b hb hday
      obtain ⟨hb12, hb1mod⟩ := hbusy b hb
      simp only [busyOnDay, Bool.or_eq_true, Bool.and_eq_true, beq_iff_eq,
        decide_eq_true_eq] at hday
      have hdiv : b.1 ≤ b.2 → dateOf b.1 ≤ dateOf b.2 := fun h =>
        Nat.div_le_div_right h
      unfold dateOf at hday hdiv
      omega
    obtain ⟨h1, h2, h3⟩ := find_slots_for_day_bounds _ _ dur buf busy hclip s hsd
    have hdate : dateOf s.start_time = d := by
      unfold dateOf
      omega
    rw [hdate]
    omega

/-- C4 witness: Scenario A instantiation of `slots_stay_within_work_hours`
at the slot 9:00-9:30. -/
theorem slots_stay_within_work_hours_witness :
    9 ≤ 17 ∧ 17 ≤ 23 ∧
      (∀ b ∈ [((600 : Nat), (660 : Nat)), (840, 930)], b.1 ≤ b.2 ∧ b.1 % 1440 ≤ 17 * 60) ∧
      mkTimeSlot 540 570 ∈
        find_available_slots 30 540 1020 9 17 15 [(600, 660), (840, 930)] ∧
      (dateOf (mkTimeSlot 540 570).start_time * 1440 + 9 * 60 ≤ (mkTimeSlot 540 570).start_time ∧
        (mkTimeSlot 540 570).end_time ≤ dateOf (mkTimeSlot 540 570).start_time * 1440 + 17 * 60) :=
  ⟨by decide, by decide, by decide, by decide,
    slots_stay_within_work_hours 30 540 1020 9 17 15 [(600, 660), (840, 930)]
      (by decide) (by decide) (by decide) (mkTimeSlot 540 570) (by decide)⟩

/-- C2: Scenario A. On a Monday (day 0) with busy intervals 10:00-11:00 and
14:00-15:30, work hours 9-17, duration 30, buffer 15, the per-day slot search
emits exactly the slots 9:00-9:30, 11:15-11:45 and 15:45-16:15. -/
theorem scenarioA_slots :
    find_slots_for_day 540 1020 [(600, 660), (840, 930)] 30 15 =
      [mkTimeSlot 540 570, mkTimeSlot 675 705, mkTimeSlot 945 975] := by
  decide

/-- C1 (failing input): with busy intervals 10:00-18:00 and 18:00-19:00 on the
same Monday, work hours 9-17, duration 30, buffer 15, the per-day search emits
a slot lying entirely inside the first busy interval: clipping the second busy
interval to the work window makes an inverted pair `(18:00, 17:00)` whose
unclipped start re-opens a spurious gap at the cursor `16:30 + buffer`. -/
theorem slot_inside_busy_interval :
    ∃ s ∈ find_slots_for_day 540 1020 [(600, 1080), (1080, 1140)] 30 15,
      600 ≤ s.start_time ∧ s.end_time ≤ 1080 := by
  decide

/-- C4 (counterexample): with busy intervals 10:00-16:30 and 17:30-18:30 on
the same Monday, work hours 9-17, duration 30, buffer 15, the per-day search
emits a slot ending at 17:15, after the day's work end 17:00. -/
theorem slot_past_work_end :
    ∃ s ∈ find_slots_for_day 540 1020 [(600, 990), (1050, 1110)] 30 15,
      1020 < s.end_time := by
  decide

/-! ## Constraint filter (`time_parser.py`, `apply_constraints_to_slots`, lines 425-466) -/

/-- One entry of the Python constraints dict.  The first six variants are the
typed keys the filter reads (`time_range`, `not_before`, `not_after`,
`weekdays_only`, `weekends_only`, `excluded_days`); the remaining variants are
keys the parser can also store (`reference_event`, `deadline`,
`deadline_event`, `must_end_before`) or any other key, none of which the
filter ever consults. -/
inductive Constraint where
  | timeRange (startHour endHour : Nat)
  | notBefore (h : Nat)
  | notAfter (h : Nat)
  | weekdaysOnly (b : Bool)
  | weekendsOnly (b : Bool)
  | excludedDays (days : List String)
  | referenceEvent (summary : String)
  | deadline (t : Nat)
  | deadlineEvent (name : String)
  | mustEndBefore (t : Nat)
  | otherKey (key : String)
  deriving Repr, DecidableEq

/-- Keys the slot filter reads (`'time_range' in constraints`, ...). -/
def Constraint.readByFilter : Constraint → Bool
  | .timeRange _ _ => true
  | .notBefore _ => true
  | .notAfter _ => true
  | .weekdaysOnly _ => true
  | .weekendsOnly _ => true
  | .excludedDays _ => true
  | _ => false

/-- Dict lookup of the `time_range` key (first entry wins, as dict keys are unique). -/
def lookupTimeRange : List Constraint → Option (Nat × Nat)
  | [] => none
  | .timeRange a b :: _ => some (a, b)
  | _ :: rest => lookupTimeRange rest

/-- Dict lookup of the `not_before` key. -/
def lookupNotBefore : List Constraint → Option Nat
  | [] => none
  | .notBefore h :: _ => some h
  | _ :: rest => lookupNotBefore rest

/-- Dict lookup of the `not_after` key. -/
def lookupNotAfter : List Constraint → Option Nat
  | [] => none
  | .notAfter h :: _ => some h
  | _ :: rest => lookupNotAfter rest

/-- Dict lookup of the `weekdays_only` key. -/
def lookupWeekdaysOnly : List Constraint → Option Bool
  | [] => none
  | .weekdaysOnly b :: _ => some b
  | _ :: rest => lookupWeekdaysOnly rest

/-- Dict lookup of the `weekends_only` key. -/
def lookupWeekendsOnly : List Constraint → Option Bool
  | [] => none
  | .weekendsOnly b :: _ => some b
  | _ :: rest => lookupWeekendsOnly rest

/-- Dict lookup of the `excluded_days` key. -/
def lookupExcludedDays : List Constraint → Option (List String)
  | [] => none
  | .excludedDays ds :: _ => some ds
  | _ :: rest => lookupExcludedDays rest

/-- Weekday names as indexed by `day_names[slot.start_time.weekday()]`. -/
def dayNames : List String :=
  ["monday", "tuesday", "wednesday", "thursday", "friday", "saturday", "sunday"]

/-- Per-slot check of `apply_constraints_to_slots`: a slot survives when every
constraint key present is satisfied (the Python body `continue`s on the first
failing check). -/
def slotOk (constraints : List Constraint) (slot : TimeSlot) : Bool :=
  (match lookupTimeRange constraints with
    | some (a, b) => decide (a ≤ hourOf slot.start_time) && decide (hourOf slot.start_time < b)
    | none => true) &&
  (match lookupNotBefore constraints with
    | some h => !decide (hourOf slot.start_time < h)
    | none => true) &&
  (match lookupNotAfter constraints with
    | some h => !decide (h ≤ hourOf slot.start_time)
    | none => true) &&
  (match lookupWeekdaysOnly constraints with
    | some b => !(b && decide (5 ≤ weekdayOf slot.start_time))
    | none => true) &&
  (match lookupWeekendsOnly constraints with
    | some b => !(b && decide (weekdayOf slot.start_time < 5))
    | none => true) &&
  (match lookupExcludedDays constraints with
    | some ds => !(ds.contains (dayNames.getD (weekdayOf slot.start_time) ""))
    | none => true)

/-- `AdvancedTimeParser.apply_constraints_to_slots` (lines 425-466): keep, in
order, the slots passing every constraint check. -/
def apply_constraints_to_slots (slots : List TimeSlot) (constraints : List Constraint) :
    List TimeSlot :=
  slots.filter (slotOk constraints)

/-- Each of the six lookups ignores the constraint entries the filter never
reads, so dropping those entries leaves all lookups unchanged. -/
theorem lookups_ignore_unread (constraints : List Constraint) :
    lookupTimeRange (constraints.filter Constraint.readByFilter) = lookupTimeRange constraints ∧
    lookupNotBefore (constraints.filter Constraint.readByFilter) = lookupNotBefore constraints ∧
    lookupNotAfter (constraints.filter Constraint.readByFilter) = lookupNotAfter constraints ∧
    lookupWeekdaysOnly (constraints.filter Constraint.readByFilter) = lookupWeekdaysOnly constraints ∧
    lookupWeekendsOnly (constraints.filter Constraint.readByFilter) = lookupWeekendsOnly constraints ∧
    lookupExcludedDays (constraints.filter Constraint.readByFilter) = lookupExcludedDays constraints := by
  induction constraints with
  | nil => simp
  | cons c rest ih =>
    obtain ⟨ih1, ih2, ih3, ih4, ih5, ih6⟩ := ih
    cases c <;>
      simp_all [List.filter, Constraint.readByFilter, lookupTimeRange, lookupNotBefore,
        lookupNotAfter, lookupWeekdaysOnly, lookupWeekendsOnly, lookupExcludedDays]

/-- C5: `apply_constraints_to_slots` returns an order-preserving subsequence
of its input, and constraint keys other than `time_range`, `not_before`,
`not_after`, `weekdays_only`, `weekends_only` and `excluded_days` have no
effect on which slots are retained. -/
theorem apply_constraints_monotone_and_ignores_unknown
    (slots : List TimeSlot) (constraints : List Constraint) :
    (apply_constraints_to_slots slots constraints).Sublist slots ∧
      apply_constraints_to_slots slots constraints =
        apply_constraints_to_slots slots (constraints.filter Constraint.readByFilter) := by
  constructor
  · exact List.filter_sublist slots
  · unfold apply_constraints_to_slots
    have h := lookups_ignore_unread constraints
    apply List.filter_congr
    intro s _
    unfold slotOk
    rw [h.1, h.2.1, h.2.2.1, h.2.2.2.1, h.2.2.2.2.1, h.2.2.2.2.2]

/-! ## String scanning utilities

The Python parser works through `re.search` and the `in` operator on the
lowered input.  The embedding models `'sub' in text` as a substring test and
each regex as a scan over the text (or over its whitespace-split tokens) that
reproduces the source's match shapes. -/

/-- Does `pat` occur at the head of `l`? -/
def matchesAt : List Char → List Char → Bool
  | [], _ => true
  | _ :: _, [] => false
  | p :: ps, c :: cs => p == c && matchesAt ps cs

/-- Does `pat` occur anywhere in `l`? -/
def occursIn (pat : List Char) : List Char → Bool
  | [] => pat.isEmpty
  | c :: cs => matchesAt pat (c :: cs) || occursIn pat cs

/-- Python `sub in text`. -/
def strContains (text sub : String) : Bool := occursIn sub.toList text.toList

/-- Python `text.startswith(pre)`. -/
def strStartsWith (text pre : String) : Bool := matchesAt pre.toList text.toList

/-- Python `text.lower()` (structural implementation over the char list). -/
def toLowerStr (text : String) : String := ⟨text.toList.map Char.toLower⟩

/-- Drop leading spaces. -/
def dropSpaces : List Char → List Char
  | [] => []
  | c :: cs => if c == ' ' then dropSpaces cs else c :: cs

/-- Python `text.strip()` (for space whitespace). -/
def trimStr (text : String) : String :=
  ⟨((dropSpaces ((dropSpaces text.toList).reverse)).reverse)⟩

/-- Tokeniser worker: split on runs of spaces, accumulating the current token
in reverse. -/
def wordsAux (cur : List Char) : List Char → List String
  | [] => if cur.isEmpty then [] else [⟨cur.reverse⟩]
  | c :: cs =>
    if c == ' ' then
      if cur.isEmpty then wordsAux [] cs else ⟨cur.reverse⟩ :: wordsAux [] cs
    else wordsAux (c :: cur) cs

/-- Whitespace tokenisation of the input. -/
def wordsOf (text : String) : List String := wordsAux [] text.toList

/-- Reassemble tokens (used for the free-text `event` capture groups). -/
def joinWords : List String → String
  | [] => ""
  | [w] => w
  | w :: rest => w ++ " " ++ joinWords rest

/-- Is the token a run of digits (`\d+`)? -/
def isNatNum (s : String) : Bool := !s.toList.isEmpty && s.toList.all Char.isDigit

/-- Numeric value of a digit token (used only under an `isNatNum` guard, like
Python `int(...)` on a `\d+` capture). -/
def tokToNat (s : String) : Nat :=
  s.toList.foldl (fun acc c => acc * 10 + (c.toNat - 48)) 0

/-- Leftmost occurrence of one of the alternatives in the text, ties broken
by alternation order, as `re.search` does for an alternation of literals. -/
def altFrom (alts : List String) : List Char → Option String
  | [] => none
  | c :: cs =>
    match alts.find? (fun a => matchesAt a.toList (c :: cs)) with
    | some a => some a
    | none => altFrom alts cs

/-! ## Time parser data model (`time_parser.py`) -/

/-- `CalendarEvent` as consumed by the parser: a summary plus its endpoints. -/
structure CalendarEvent where
  summary : String
  start_time : Nat
  end_time : Nat
  deriving Repr, DecidableEq

/-- `TimeParseResult.__init__` (lines 12-29) with its Python defaults.  Every
confidence occurring in the source is a multiple of 0.1, so confidences are
stored in tenths (`8` stands for the float `0.8`) to keep the embedding
decidable; the cascade thresholds 0.7 and 0.5 become 7 and 5. -/
structure TimeParseResult where
  start_datetime : Option Nat := none
  end_datetime : Option Nat := none
  duration_minutes : Option Nat := none
  constraints : List Constraint := []
  confidence : Nat := 0
  needs_clarification : Bool := false
  clarification_needed : String := ""
  deriving Repr, DecidableEq

/-- External collaborators of the parser: the `dateparser` library (with the
parser's timezone settings), the calendar's fuzzy event lookup
(`CalendarManager.find_existing_event`), and `dateutil.relativedelta` month
arithmetic (`addMonths n t` is `t + relativedelta(months=n)`). -/
structure ParserExt where
  dateparse : String → Option Nat
  findEvent : String → Option CalendarEvent
  addMonths : Nat → Nat → Nat

/-- A trivial collaborator bundle: no date parses, no event is found, month
arithmetic is the identity.  Used to instantiate theorems whose inputs never
reach the collaborators. -/
def trivialExt : ParserExt :=
  { dateparse := fun _ => none, findEvent := fun _ => none, addMonths := fun _ t => t }

/-! ## Relative-calendar strategy (`_parse_relative_time`, lines 95-185) -/

/-- Alternation of the `next`/`this` relative patterns, in source order. -/
def relUnits : List String :=
  ["week", "month", "tuesday", "wednesday", "thursday", "friday", "monday",
   "saturday", "sunday"]

/-- Match `kw\s+(?P<unit>...)` for the `next`/`this` patterns: the first unit
of the alternation such that `kw unit` occurs in the text. -/
def matchKwUnit (kw text : String) : Option String :=
  relUnits.find? (fun u => strContains text (kw ++ " " ++ u))

/-- Units of the numeric relative patterns (`days?|weeks?|months?`). -/
def numUnits : List String := ["day", "days", "week", "weeks", "month", "months"]

/-- Match `(?P<num>\d+)\s+(?P<unit>days?|weeks?|months?)\s+(?P<direction>from
now|later|after)` over the token list; only the unit is needed downstream
(the source enters the unit branch because the `unit` key is always present
in the group dict). -/
def matchNumUnitDirection : List String → Option String
  | w1 :: w2 :: w3 :: rest =>
    if isNatNum w1 && numUnits.contains w2 &&
        (w3 == "later" || w3 == "after" || (w3 == "from" && (rest.headD "") == "now"))
    then some w2
    else matchNumUnitDirection (w2 :: w3 :: rest)
  | _ => none

/-- Match `(?P<direction>before|after)\s+(?P<num>\d+)\s+(?P<unit>...)`. -/
def matchDirectionNumUnit : List String → Option String
  | w1 :: w2 :: w3 :: rest =>
    if (w1 == "before" || w1 == "after") && isNatNum w2 && numUnits.contains w3
    then some w3
    else matchDirectionNumUnit (w2 :: w3 :: rest)
  | _ => none

/-- Unit-branch of `_parse_relative_time` (lines 104-151).  A day-count unit
(`day`/`days`) matches none of the week/month/weekday branches; in the source
the subsequent `return` then raises `NameError` on the unbound `start_time`,
the exception is caught and the pattern is skipped -- modelled as `none`. -/
def handleRelUnit (ext : ParserExt) (text : String) (now : Nat) (unit : String) :
    Option TimeParseResult :=
  if unit == "week" || unit == "weeks" then
    if strContains text "next" then
      some { start_datetime := some (now + 7 * 1440),
             end_datetime := some (now + 7 * 1440 + 7 * 1440), confidence := 8 }
    else if strContains text "this" then
      some { start_datetime := some now, end_datetime := some (now + 7 * 1440),
             confidence := 8 }
    else
      some { start_datetime := some now, end_datetime := some (now + 7 * 1440),
             confidence := 8 }
  else if unit == "month" || unit == "months" then
    if strContains text "next" then
      some { start_datetime := some (ext.addMonths 1 now),
             end_datetime := some (ext.addMonths 1 (ext.addMonths 1 now)), confidence := 8 }
    else
      some { start_datetime := some now, end_datetime := some (ext.addMonths 1 now),
             confidence := 8 }
  else
    match dayNames.findIdx? (· == unit) with
    | some idx =>
      let daysAhead : Int := (idx : Int) - (weekdayOf now : Int)
      let daysAhead :=
        if strContains text "this" then
          if daysAhead ≤ 0 then daysAhead + 7 else daysAhead
        else if strContains text "next" then
          if daysAhead ≤ 0 then daysAhead + 7 else daysAhead + 7
        else
          if daysAhead ≤ 0 then daysAhead + 7 else daysAhead
      let s := now + daysAhead.toNat * 1440
      some { start_datetime := some s, end_datetime := some (s + 480), confidence := 8 }
    | none => none

/-- `_parse_relative_time`: try the four relative patterns in order; a pattern
whose unit branch fails is skipped, and no match yields confidence 0. -/
def parse_relative_time (ext : ParserExt) (text : String) (now : Nat) : TimeParseResult :=
  match (matchKwUnit "next" text).bind (handleRelUnit ext text now) with
  | some r => r
  | none =>
    match (matchKwUnit "this" text).bind (handleRelUnit ext text now) with
    | some r => r
    | none =>
      match (matchNumUnitDirection (wordsOf text)).bind (handleRelUnit ext text now) with
      | some r => r
      | none =>
        match (matchDirectionNumUnit (wordsOf text)).bind (handleRelUnit ext text now) with
        | some r => r
        | none => { confidence := 0 }

/-! ## Contextual/event-anchored strategy (`_parse_contextual_time`, lines 187-255) -/

/-- Duration units of the first contextual pattern (`minutes?|hours?`). -/
def durUnitsMH : List String := ["minute", "minutes", "hour", "hours"]

/-- Units of the third contextual pattern (`days?|hours?`). -/
def durUnitsDH : List String := ["day", "days", "hour", "hours"]

/-- Match `(?P<duration>\d+)\s+(?P<unit>minutes?|hours?)\s+(?P<context>before|after)\s+(?P<event>.*)`. -/
def matchContextual1 : List String → Option ((Nat × String) × String × String)
  | w1 :: w2 :: w3 :: rest =>
    if isNatNum w1 && durUnitsMH.contains w2 && (w3 == "before" || w3 == "after")
    then some ((tokToNat w1, w2), w3, joinWords rest)
    else matchContextual1 (w2 :: w3 :: rest)
  | _ => none

/-- Match `(?P<context>before|after)\s+(?P<event>.*)`. -/
def matchContextual2 : List String → Option (String × String)
  | [] => none
  | w :: rest =>
    if w == "before" || w == "after" then some (w, joinWords rest)
    else matchContextual2 rest

/-- Match `(?P<num>\d+)\s+(?P<unit>days?|hours?)\s+(?P<context>before|after)\s+(?P<event>.*)`;
its `num` group is not named `duration`, so downstream it behaves like a
match without a duration. -/
def matchContextual3 : List String → Option (String × String)
  | w1 :: w2 :: w3 :: rest =>
    if isNatNum w1 && durUnitsDH.contains w2 && (w3 == "before" || w3 == "after")
    then some (w3, joinWords rest)
    else matchContextual3 (w2 :: w3 :: rest)
  | _ => none

/-- Group processing of `_parse_contextual_time` (lines 195-247): look up the
referenced event and build the target window with the 15/30-minute buffers,
or ask for clarification when the event is unknown. -/
def contextualResult (ext : ParserExt) (text : String)
    (dur? : Option (Nat × String)) (context event : String) : TimeParseResult :=
  match ext.findEvent event with
  | some ev =>
    if context == "before" then
      match dur? with
      | some (num, unit) =>
        let minutes := if strStartsWith unit "minute" then num else num * 60
        let e := ev.start_time - 15
        { start_datetime := some (e - minutes), end_datetime := some e,
          constraints := [.referenceEvent ev.summary], confidence := 9 }
      | none =>
        let e := ev.start_time - 30
        { start_datetime := some (e - 240), end_datetime := some e,
          constraints := [.referenceEvent ev.summary], confidence := 9 }
    else
      match dur? with
      | some (num, unit) =>
        if strContains text "day" then
          let days := if strContains text "two" || strContains text "2" then 2 else 1
          let s := ev.end_time + days * 1440
          { start_datetime := some s, end_datetime := some (s + 480),
            constraints := [.referenceEvent ev.summary], confidence := 9 }
        else
          let minutes := if strStartsWith unit "minute" then num else num * 60
          let s := ev.end_time + 15
          { start_datetime := some s, end_datetime := some (s + minutes),
            constraints := [.referenceEvent ev.summary], confidence := 9 }
      | none =>
        let s := ev.end_time + 30
        { start_datetime := some s, end_datetime := some (s + 240),
          constraints := [.referenceEvent ev.summary], confidence := 9 }
  | none =>
    { needs_clarification := true,
      clarification_needed := "I couldn\x27t find an event matching \x27" ++ event ++
        "\x27 in your calendar. Could you provide more details or check the event name?",
      confidence := 3 }

/-- `_parse_contextual_time`: try the three contextual patterns in order. -/
def parse_contextual_time (ext : ParserExt) (text : String) : TimeParseResult :=
  let ws := wordsOf text
  match matchContextual1 ws with
  | some (d, ctx, ev) => contextualResult ext text (some d) ctx ev
  | none =>
    match matchContextual2 ws with
    | some (ctx, ev) => contextualResult ext text none ctx ev
    | none =>
      match matchContextual3 ws with
      | some (ctx, ev) => contextualResult ext text none ctx ev
      | none => { confidence := 0 }

/-! ## Constraint-only strategy (`_parse_constraint_time`, lines 257-314) -/

/-- Alternatives of the `not\s+(too early|too late|on \w+)` pattern. -/
inductive NotKind where
  | tooEarly
  | tooLate
  | onDay
  deriving Repr, DecidableEq

/-- Leftmost match of the `not ...` pattern (the `on \w+` alternative sets no
constraint downstream but still consumes the single `re.search` match). -/
def notMatchFrom : List Char → Option NotKind
  | [] => none
  | c :: cs =>
    if matchesAt "not too early".toList (c :: cs) then some .tooEarly
    else if matchesAt "not too late".toList (c :: cs) then some .tooLate
    else if matchesAt "not on ".toList (c :: cs) then some .onDay
    else notMatchFrom cs

/-- `_parse_constraint_time`: accumulate constraints over the four patterns
(each one `re.search`-ed once, each match overwriting the confidence), then
the day-exclusion sweep, then either a default seven-day window or a
zero-confidence result.  The `after \d+|before \d+` pattern of the source
matches no branch of the dispatch and never contributes, so it is omitted. -/
def parse_constraint_time (text : String) (now : Nat) : TimeParseResult :=
  let st1 : List Constraint × Nat :=
    match notMatchFrom text.toList with
    | some .tooEarly => ([Constraint.notBefore 9], 5)
    | some .tooLate => ([Constraint.notAfter 18], 5)
    | _ => ([], 0)
  let st2 : List Constraint × Nat :=
    match altFrom ["morning", "afternoon", "evening", "night"] text.toList with
    | some a =>
      let range : Nat × Nat :=
        if a == "morning" then (6, 12)
        else if a == "afternoon" then (12, 18)
        else if a == "evening" then (18, 22)
        else (22, 6)
      (st1.1 ++ [Constraint.timeRange range.1 range.2], 6)
    | none => st1
  let st3 : List Constraint × Nat :=
    match altFrom ["weekday", "weekend"] text.toList with
    | some a =>
      (st2.1 ++ [if a == "weekday" then Constraint.weekdaysOnly true
                 else Constraint.weekendsOnly true], 5)
    | none => st2
  let excluded := dayNames.filter (fun d => strContains text d)
  let st4 : List Constraint × Nat :=
    if (strContains text "not on" || strContains text "not") && !excluded.isEmpty
    then (st3.1 ++ [Constraint.excludedDays excluded], max st3.2 6)
    else st3
  if st4.1.isEmpty then { confidence := 0 }
  else
    { start_datetime := some (now + 60), end_datetime := some (now + 60 + 7 * 1440),
      constraints := st4.1, confidence := st4.2 }

/-! ## Specific-date strategy and fallback (`_parse_specific_time`,
`_fallback_parse`, lines 316-378) -/

/-- Python `datetime.minute` of a minute timestamp. -/
def minuteOf (t : Nat) : Nat := t % 60

/-- `_parse_specific_time`: `today`/`tomorrow` become business-hour windows,
anything else is delegated to `dateparser`; a bare date (midnight) is widened
to business hours. -/
def parse_specific_time (ext : ParserExt) (text : String) (now : Nat) : TimeParseResult :=
  if strContains text "today" then
    { start_datetime := some (replaceHour now 9), end_datetime := some (replaceHour now 17),
      confidence := 9 }
  else if strContains text "tomorrow" then
    { start_datetime := some (replaceHour (now + 1440) 9),
      end_datetime := some (replaceHour (now + 1440) 17), confidence := 9 }
  else
    match ext.dateparse text with
    | some d =>
      if hourOf d == 0 && minuteOf d == 0 then
        { start_datetime := some (replaceHour d 9), end_datetime := some (replaceHour d 17),
          confidence := 7 }
      else
        { start_datetime := some d, end_datetime := some (d + 60), confidence := 7 }
    | none => { confidence := 0 }

/-- `_fallback_parse`: last `dateparser` attempt at confidence 0.4, else a
clarification request at confidence 0. -/
def fallback_parse (ext : ParserExt) (text : String) : TimeParseResult :=
  match ext.dateparse text with
  | some d =>
    { start_datetime := some d, end_datetime := some (d + 60), confidence := 4 }
  | none =>
    { needs_clarification := true,
      clarification_needed :=
        "I couldn\x27t understand the time you mentioned. Could you please specify it differently?",
      confidence := 0 }

/-- `parse_time_expression` (lines 70-93): lower and strip the text, then run
the strategy cascade with its per-strategy confidence thresholds. -/
def parse_time_expression (ext : ParserExt) (text : String) (now : Nat) : TimeParseResult :=
  let t := trimStr (toLowerStr text)
  let r1 := parse_relative_time ext t now
  if 7 < r1.confidence then r1
  else
    let r2 := parse_contextual_time ext t
    if 7 < r2.confidence then r2
    else
      let r3 := parse_constraint_time t now
      if 5 < r3.confidence then r3
      else
        let r4 := parse_specific_time ext t now
        if 5 < r4.confidence then r4
        else fallback_parse ext t

/-- Key computation for C6: on the lowered text `next tuesday` the relative
strategy matches unit `tuesday`, and when `now` falls on a Wednesday
(weekday 2) the `next` branch turns the natural offset `-1` into `6`. -/
theorem parse_relative_next_tuesday (ext : ParserExt) (now : Nat)
    (h : weekdayOf now = 2) :
    parse_relative_time ext "next tuesday" now =
      { start_datetime := some (now + 6 * 1440),
        end_datetime := some (now + 6 * 1440 + 480), confidence := 8 } := by
  have hB : handleRelUnit ext "next tuesday" now "tuesday" =
      some { start_datetime := some (now + 6 * 1440),
             end_datetime := some (now + 6 * 1440 + 480), confidence := 8 } := by
    unfold handleRelUnit
    simp only [h]
    rfl
  unfold parse_relative_time
  rw [show matchKwUnit "next" "next tuesday" = some "tuesday" from rfl]
  rw [show (some "tuesday").bind (handleRelUnit ext "next tuesday" now) =
        handleRelUnit ext "next tuesday" now "tuesday" from rfl]
  rw [hB]

/-- C6: on the text `next tuesday`, evaluated when the current datetime falls
on a Wednesday, `parse_time_expression` resolves the start to the Tuesday six
days later (not the next calendar day) with confidence at least 0.8 (stored
as 8 tenths). -/
theorem next_tuesday_on_wednesday (ext : ParserExt) (now : Nat)
    (h : weekdayOf now = 2) :
    (parse_time_expression ext "next tuesday" now).start_datetime =
        some (now + 6 * 1440) ∧
      dateOf (now + 6 * 1440) = dateOf now + 6 ∧
      8 ≤ (parse_time_expression ext "next tuesday" now).confidence := by
  have hcasc : parse_time_expression ext "next tuesday" now =
      { start_datetime := some (now + 6 * 1440),
        end_datetime := some (now + 6 * 1440 + 480), confidence := 8 } := by
    unfold parse_time_expression
    rw [show trimStr (toLowerStr "next tuesday") = "next tuesday" from rfl]
    dsimp only
    rw [parse_relative_next_tuesday ext now h]
    rfl
  rw [hcasc]
  refine ⟨rfl, ?_, by norm_num⟩
  unfold dateOf
  omega

/-- C6 witness: instantiation at a concrete Wednesday noon
(day 2 of the epoch week, 12:00). -/
theorem next_tuesday_on_wednesday_witness :
    weekdayOf (2 * 1440 + 720) = 2 ∧
      ((parse_time_expression trivialExt "next tuesday" (2 * 1440 + 720)).start_datetime =
          some (2 * 1440 + 720 + 6 * 1440) ∧
        dateOf (2 * 1440 + 720 + 6 * 1440) = dateOf (2 * 1440 + 720) + 6 ∧
        8 ≤ (parse_time_expression trivialExt "next tuesday" (2 * 1440 + 720)).confidence) :=
  ⟨by decide, next_tuesday_on_wednesday trivialExt (2 * 1440 + 720) (by decide)⟩

/-- C9: the strategy cascade never fails abruptly -- in the embedding every
strategy is a total function, mirroring the source where each strategy catches
its own exceptions -- and when no strategy clears its threshold and the
`dateparser` fallback also finds nothing, the result asks for clarification
with confidence 0. -/
theorem parse_failure_yields_clarification (ext : ParserExt) (text : String) (now : Nat)
    (h1 : (parse_relative_time ext (trimStr (toLowerStr text)) now).confidence ≤ 7)
    (h2 : (parse_contextual_time ext (trimStr (toLowerStr text))).confidence ≤ 7)
    (h3 : (parse_constraint_time (trimStr (toLowerStr text)) now).confidence ≤ 5)
    (h4 : (parse_specific_time ext (trimStr (toLowerStr text)) now).confidence ≤ 5)
    (h5 : ext.dateparse (trimStr (toLowerStr text)) = none) :
    (parse_time_expression ext text now).needs_clarification = true ∧
      (parse_time_expression ext text now).confidence = 0 := by
  unfold parse_time_expression
  dsimp only
  rw [if_neg (by omega), if_neg (by omega), if_neg (by omega), if_neg (by omega)]
  unfold fallback_parse
  rw [h5]
  exact ⟨rfl, rfl⟩

/-- C9 witness: on the unparseable text `zzz` with collaborators that find
nothing, the cascade ends in the clarification result. -/
theorem parse_failure_yields_clarification_witness :
    (parse_relative_time trivialExt (trimStr (toLowerStr "zzz")) 0).confidence ≤ 7 ∧
      (parse_contextual_time trivialExt (trimStr (toLowerStr "zzz"))).confidence ≤ 7 ∧
      (parse_constraint_time (trimStr (toLowerStr "zzz")) 0).confidence ≤ 5 ∧
      (parse_specific_time trivialExt (trimStr (toLowerStr "zzz")) 0).confidence ≤ 5 ∧
      trivialExt.dateparse (trimStr (toLowerStr "zzz")) = none ∧
      ((parse_time_expression trivialExt "zzz" 0).needs_clarification = true ∧
        (parse_time_expression trivialExt "zzz" 0).confidence = 0) :=
  ⟨by decide, by decide, by decide, by decide, rfl,
    parse_failure_yields_clarification trivialExt "zzz" 0
      (by decide) (by decide) (by decide) (by decide) rfl⟩

/-! ## Deadline strategy (`parse_deadline_request`, lines 551-682) -/

/-- The verbs anchoring a day+time deadline clause (`leaves|starts|begins`). -/
def verbList : List String := ["leaves", "starts", "begins"]

/-- Split a time capture like `6pm` into its digits and an `am`/`pm` suffix. -/
def stripAmPm (s : String) : String × Option String :=
  let cl := s.toList
  if 2 ≤ cl.length && (cl.drop (cl.length - 2) == ['a', 'm'] ||
      cl.drop (cl.length - 2) == ['p', 'm'])
  then (⟨cl.take (cl.length - 2)⟩, some ⟨cl.drop (cl.length - 2)⟩)
  else (s, none)

/-- Parse the `(?P<time>\d+(?::\d+)?\s*(?:am|pm))` capture from the token
after `at` and (optionally) the one after it; the outer pattern requires the
meridiem, the inner `re.match` then extracts hour, minute, and meridiem. -/
def parseTimeToks (t1 : String) (t2 : Option String) : Option (Nat × Nat × String) :=
  let core := (stripAmPm t1).1
  let ap : Option String :=
    match (stripAmPm t1).2 with
    | some s => some s
    | none =>
      match t2 with
      | some w => if w == "am" || w == "pm" then some w else none
      | none => none
  match ap with
  | none => none
  | some mer =>
    match (splitColon core.toList []).map (fun w => (isNatNum w, tokToNat w)) with
    | [(true, h)] => some (h, 0, mer)
    | [(true, h), (true, m)] => some (h, m, mer)
    | _ => none
where
  /-- Split on `:` keeping empty pieces, like `str.split(':')`. -/
  splitColon : List Char → List Char → List String
    | [], cur => [⟨cur.reverse⟩]
    | c :: cs, cur =>
      if c == ':' then ⟨cur.reverse⟩ :: splitColon cs [] else splitColon cs (c :: cur)

/-- Scan for `(?:leaves|starts|begins)\s+(?:on\s+)?(?P<day>\w+)\s+at\s+(?P<time>...)`. -/
def findVerbDayTime : List String → Option (String × Nat × Nat × String)
  | [] => none
  | v :: rest =>
    if verbList.contains v then
      match rest with
      | "on" :: day :: "at" :: t1 :: trest =>
        (parseTimeToks t1 trest.head?).map (fun t => (day, t))
      | day :: "at" :: t1 :: trest =>
        (parseTimeToks t1 trest.head?).map (fun t => (day, t))
      | _ => none
    else findVerbDayTime rest

/-- Scan for the verbless variant `(?:on\s+)?(?P<day>\w+)\s+at\s+(?P<time>...)`
of the third deadline pattern: the day is the token right before `at`. -/
def findDayAtTime : List String → Option (String × Nat × Nat × String)
  | day :: "at" :: t1 :: trest => (parseTimeToks t1 trest.head?).map (fun t => (day, t))
  | _ :: rest => findDayAtTime rest
  | [] => none

/-- Scan for the explicit duration clause `for\s+(?P<duration>\d+)\s+(?P<unit>minutes?|hours?)`
of the first deadline pattern. -/
def durationFromFor : List String → Option (Nat × String)
  | [] => none
  | w :: rest =>
    if w == "for" then
      match rest with
      | n :: u :: _ =>
        if isNatNum n && durUnitsMH.contains u then some (tokToNat n, u)
        else durationFromFor rest
      | _ => durationFromFor rest
    else durationFromFor rest

/-- Scan for the free-standing duration `(\d+)\s+(minutes?|hours?)` searched
over the original text when the matched pattern carries no duration group. -/
def durationSearch : List String → Option (Nat × String)
  | n :: u :: rest =>
    if isNatNum n && durUnitsMH.contains u then some (tokToNat n, u)
    else durationSearch (u :: rest)
  | _ => none

/-- Scan for the fourth deadline pattern
`(?P<duration>\d+)\s+(?P<unit>minutes?|hours?)\s+before\s+(?P<event>.*)`. -/
def durBeforeEvent : List String → Option (Nat × String × String)
  | n :: u :: "before" :: rest =>
    if isNatNum n && durUnitsMH.contains u then some (tokToNat n, u, joinWords rest)
    else durBeforeEvent (u :: "before" :: rest)
  | _ :: rest => durBeforeEvent rest
  | [] => none

/-- Event capture of the day+time deadline patterns: the tokens after
`before`, lazily up to the `that`/verb anchor. -/
def takeUntilVerb : List String → List String
  | [] => []
  | w :: rest => if w == "that" || verbList.contains w then [] else w :: takeUntilVerb rest

/-- Tokens after the first `before`. -/
def afterBefore : List String → List String
  | [] => []
  | w :: rest => if w == "before" then rest else afterBefore rest

/-- Day+time group processing of `parse_deadline_request` (lines 572-645):
resolve the weekday to the coming occurrence, convert the 12-hour time, place
the deadline on that day, back off 30 minutes for `must_end_before` and 8
hours for the search start. -/
def deadlineFromGroups (eventName dayName : String) (hour12 minute : Nat)
    (mer : String) (meetingDuration : Nat) (now : Nat) : TimeParseResult :=
  match dayNames.findIdx? (· == dayName) with
  | some target =>
    let daysAhead : Int := (target : Int) - (weekdayOf now : Int)
    let daysAhead := if daysAhead ≤ 0 then daysAhead + 7 else daysAhead
    let deadlineDate := now + daysAhead.toNat * 1440
    let hour :=
      if mer == "pm" && hour12 ≠ 12 then hour12 + 12
      else if mer == "am" && hour12 == 12 then 0
      else hour12
    let deadline := dateOf deadlineDate * 1440 + hour * 60 + minute
    let endTime := deadline - 30
    let searchStart := deadline - 480
    { start_datetime := some searchStart, end_datetime := some endTime,
      duration_minutes := some meetingDuration,
      constraints := [.deadline deadline, .deadlineEvent eventName,
        .mustEndBefore endTime],
      confidence := 9 }
  | none => { confidence := 0 }

/-- `parse_deadline_request`: lower the text, try the day+time deadline
patterns (with the duration from the `for` clause, from a duration phrase
anywhere in the text, or the 60-minute default), then the event-anchored
fourth pattern, else confidence 0. -/
def parse_deadline_request (ext : ParserExt) (text : String) (now : Nat) : TimeParseResult :=
  let tl := toLowerStr text
  let ws := wordsOf tl
  if ws.contains "before" then
    let dayTime :=
      match findVerbDayTime ws with
      | some g => some g
      | none => findDayAtTime (afterBefore ws)
    match dayTime with
    | some (day, h12, m, mer) =>
      let meetingDuration :=
        match durationFromFor ws with
        | some (n, u) => if strStartsWith u "hour" then n * 60 else n
        | none =>
          match durationSearch (wordsOf text) with
          | some (n, u) => if strStartsWith u "hour" then n * 60 else n
          | none => 60
      deadlineFromGroups (joinWords (takeUntilVerb (afterBefore ws))) day h12 m mer
        meetingDuration now
    | none =>
      match durBeforeEvent ws with
      | some (n, u, eventName) =>
        match ext.findEvent eventName with
        | some ev =>
          let durationMinutes := if strStartsWith u "hour" then n * 60 else n
          let endTime := ev.start_time - 15
          { start_datetime := some (endTime - durationMinutes),
            end_datetime := some endTime,
            duration_minutes := some durationMinutes,
            constraints := [.referenceEvent ev.summary, .mustEndBefore endTime],
            confidence := 9 }
        | none =>
          { needs_clarification := true,
            clarification_needed := "I couldn\x27t find \x27" ++ eventName ++
              "\x27 in your calendar. Could you provide the specific date and time for this event?",
            confidence := 3 }
      | none => { confidence := 0 }
  else { confidence := 0 }

/-- Date ordinal of the coming occurrence of weekday `target` strictly after
`now`'s day within the next seven days (the code's `days_ahead <= 0` rule). -/
def comingWeekday (target now : Nat) : Nat :=
  dateOf now +
    (if target ≤ weekdayOf now then target + 7 - weekdayOf now else target - weekdayOf now)

/-- C7 (counterexample): for the deadline text of Scenario D evaluated on a
Wednesday noon, the search window starts at the coming Friday 10:00
(`deadline - 8h = 18:00 - 8h`), not at Friday 09:30 as the claim states. -/
theorem deadline_search_start_is_ten :
    (parse_deadline_request trivialExt
        "45 minutes before my flight that leaves Friday at 6 PM" (2 * 1440 + 720)).start_datetime ≠
        some (4 * 1440 + 570) ∧
      (parse_deadline_request trivialExt
        "45 minutes before my flight that leaves Friday at 6 PM" (2 * 1440 + 720)).start_datetime =
        some (4 * 1440 + 600) := by
  decide

/-- Day+time processing at `friday`, `6 pm`: the deadline lands at 18:00 of
the coming Friday, `must_end_before` thirty minutes earlier at 17:30, and the
search start eight hours before the deadline at 10:00. -/
theorem deadlineFromGroups_friday_6pm (ev : String) (mdur now : Nat) :
    deadlineFromGroups ev "friday" 6 0 "pm" mdur now =
      { start_datetime := some (comingWeekday 4 now * 1440 + 600),
        end_datetime := some (comingWeekday 4 now * 1440 + 1050),
        duration_minutes := some mdur,
        constraints := [.deadline (comingWeekday 4 now * 1440 + 1080), .deadlineEvent ev,
          .mustEndBefore (comingWeekday 4 now * 1440 + 1050)],
        confidence := 9 } := by
  unfold deadlineFromGroups
  rw [show dayNames.findIdx? (· == "friday") = some 4 from rfl]
  dsimp only
  have hkey : ∀ dA : Int, dA = (((4 : Nat) : Int)) - (weekdayOf now : Int) →
      dateOf (now + (if dA ≤ 0 then dA + 7 else dA).toNat * 1440) = comingWeekday 4 now := by
    intro dA hdA
    subst hdA
    unfold comingWeekday dateOf weekdayOf dateOf
    by_cases hw4 : 4 ≤ now / 1440 % 7
    · rw [if_pos hw4, if_pos (by push_cast; omega)]
      omega
    · rw [if_neg hw4, if_neg (by push_cast; omega)]
      omega
  rw [hkey _ rfl]
  simp only [TimeParseResult.mk.injEq, Option.some.injEq, List.cons.injEq,
    Constraint.deadline.injEq, Constraint.deadlineEvent.injEq, Constraint.mustEndBefore.injEq]
  norm_num
  constructor <;> omega

/-- C7 (amended): for the deadline text of Scenario D,
`parse_deadline_request` extracts `duration_minutes = 45` and sets
`must_end_before` to the coming Friday 17:30 (the 18:00 deadline minus the
30-minute buffer), but the search window starts at Friday 10:00
(`deadline - 8h`), not 09:30. -/
theorem deadline_flight_scenario (ext : ParserExt) (now : Nat) :
    (parse_deadline_request ext
        "45 minutes before my flight that leaves Friday at 6 PM" now).duration_minutes =
        some 45 ∧
      (parse_deadline_request ext
        "45 minutes before my flight that leaves Friday at 6 PM" now).end_datetime =
        some (comingWeekday 4 now * 1440 + 1050) ∧
      Constraint.mustEndBefore (comingWeekday 4 now * 1440 + 1050) ∈
        (parse_deadline_request ext
          "45 minutes before my flight that leaves Friday at 6 PM" now).constraints ∧
      (parse_deadline_request ext
        "45 minutes before my flight that leaves Friday at 6 PM" now).start_datetime =
        some (comingWeekday 4 now * 1440 + 600) := by
  have hred : parse_deadline_request ext
      "45 minutes before my flight that leaves Friday at 6 PM" now =
      deadlineFromGroups "my flight" "friday" 6 0 "pm" 45 now := rfl
  rw [hred, deadlineFromGroups_friday_6pm]
  refine ⟨rfl, rfl, ?_, rfl⟩
  simp

/-! ## Conversation state machine (`state_manager.py`, `conversation_manager.py`) -/

/-- `ConversationState` enum (`state_manager.py`, lines 13-23). -/
inductive ConversationState where
  | idle
  | waiting_for_duration
  | waiting_for_time
  | presenting_options
  | waiting_for_selection
  | confirming_details
  | creating_event
  | completed
  | error
  deriving Repr, DecidableEq

/-- One slot dict as stored in `meeting_request.available_slots`
(`conversation_manager.py` `_find_available_slots`): start, end, duration and
the human-readable label. -/
structure SlotData where
  start_time : Nat
  end_time : Nat
  duration_minutes : Int
  formatted_time : String
  deriving Repr, DecidableEq

/-- The part of `ConversationSession`/`MeetingRequest` read and written by the
fallback selection path. -/
structure SessionModel where
  state : ConversationState
  available_slots : List SlotData
  duration_minutes : Option Nat
  selected_slot : Option SlotData
  deriving Repr, DecidableEq

/-- Python list indexing `l[i]`: non-negative indices from the front,
negative indices from the back; out of range raises (`none`). -/
def pyIndex (l : List α) (i : Int) : Option α :=
  if 0 ≤ i then l.get? i.toNat
  else if 0 ≤ (l.length : Int) + i then l.get? ((l.length : Int) + i).toNat
  else none

/-- Agreement words of the day-based selection path
(`_fallback_response`, line 345). -/
def agreementWords : List String :=
  ["okay", "ok", "yes", "sure", "good", "fine", "works", "perfect", "great"]

/-- Word alternatives of the selection regex `(\d+)|first|second|third|one|two|three`. -/
def selWords : List String := ["first", "second", "third", "one", "two", "three"]

/-- Maximal digit run at the head of the text (`\d+` is greedy). -/
def takeDigits : List Char → List Char
  | [] => []
  | c :: cs => if c.isDigit then c :: takeDigits cs else []

/-- Value of the digit run at the head of the text. -/
def digitRunVal (l : List Char) : Nat :=
  (takeDigits l).foldl (fun a c => a * 10 + (c.toNat - 48)) 0

/-- Leftmost match of `(\d+)|first|second|third|one|two|three`: a digit run
(group 1) or one of the ordinal words. -/
def numOrWordFrom : List Char → Option (Sum Nat String)
  | [] => none
  | c :: cs =>
    if c.isDigit then some (Sum.inl (digitRunVal (c :: cs)))
    else
      match selWords.find? (fun w => matchesAt w.toList (c :: cs)) with
      | some w => some (Sum.inr w)
      | none => numOrWordFrom cs

/-- The ordinal-word table `{'first': 0, 'one': 0, 'second': 1, 'two': 1,
'third': 2, 'three': 2}.get(word, 0)`. -/
def selWordIdx (w : String) : Nat :=
  if w == "first" || w == "one" then 0
  else if w == "second" || w == "two" then 1
  else if w == "third" || w == "three" then 2
  else 0

/-- Selection parsing of the `PRESENTING_OPTIONS` fallback branch
(`_fallback_response`, lines 333-375): a day name plus an agreement word
selects the first of the three presented options whose label mentions the day
(default index 2); otherwise a number or ordinal word is parsed, a number `n`
becoming index `n - 1`. -/
def selectionIndex (slots : List SlotData) (input : String) : Option Int :=
  let lower := toLowerStr input
  let daySel := dayNames.find? (fun d => strContains lower d)
  let hasAgr := agreementWords.any (fun w => strContains lower w)
  match daySel, hasAgr with
  | some day, true =>
    some (((slots.take 3).findIdx? (fun s => strContains (toLowerStr s.formatted_time) day)).getD 2 : Nat)
  | _, _ =>
    match numOrWordFrom lower.toList with
    | some (Sum.inl n) => some ((n : Int) - 1)
    | some (Sum.inr w) => some (selWordIdx w : Nat)
    | none => none

/-- `_schedule_meeting` (`conversation_manager.py`, lines 666-701): reject an
empty slot list and any `slot_index >= len(available_slots)` (the only bounds
check), pick `available_slots[slot_index]` with Python indexing, create the
event through the calendar collaborator, and on success store the selection
and move the session to `COMPLETED`.  A failure leaves the session unchanged
and returns no slot. -/
def schedule_meeting (createEvent : Nat → Nat → Option String)
    (session : SessionModel) (slotIndex : Int) : SessionModel × Option SlotData :=
  if session.available_slots = [] then (session, none)
  else if (session.available_slots.length : Int) ≤ slotIndex then (session, none)
  else
    match pyIndex session.available_slots slotIndex with
    | none => (session, none)
    | some sel =>
      match session.duration_minutes with
      | none => (session, none)
      | some dur =>
        match createEvent sel.start_time dur with
        | some _eid =>
          ({ session with selected_slot := some sel, state := .completed }, some sel)
        | none => (session, none)

/-- `PRESENTING_OPTIONS` branch of `_fallback_response` (lines 332-384):
parse the selection, schedule the meeting, and on success set the session to
`COMPLETED` (again) with the confirmation message; otherwise re-prompt. -/
def fallback_options (createEvent : Nat → Nat → Option String)
    (session : SessionModel) (input : String) : SessionModel × String :=
  match selectionIndex session.available_slots input with
  | some idx =>
    let out := schedule_meeting createEvent session idx
    match out.2 with
    | some slot =>
      ({ out.1 with state := .completed },
        "Perfect! I\x27ve scheduled your meeting for " ++ slot.formatted_time ++
          ". Is there anything else I can help you with?")
    | none =>
      (out.1, "I had trouble scheduling that meeting. Could you try selecting again?")
  | none =>
    (session,
      "Which time slot would you prefer? Please say the number (1, 2, or 3), the day name, or \x27first\x27, \x27second\x27, etc.")

/-- C8 (counterexample): in `PresentingOptions` with three presented options,
the input `2` makes the fallback path schedule immediately; the session ends
in `Completed`, not `ConfirmingDetails`, although the stored selection is
indeed `options[1]`. -/
theorem selecting_two_completes_session :
    (fallback_options (fun _ _ => some "evt1")
        { state := .presenting_options,
          available_slots :=
            [⟨540, 570, 30, "Monday, December 16 at 9:00 AM - 9:30 AM"⟩,
             ⟨2040, 2070, 30, "Tuesday, December 17 at 10:00 AM - 10:30 AM"⟩,
             ⟨3480, 3510, 30, "Wednesday, December 18 at 10:00 AM - 10:30 AM"⟩],
          duration_minutes := some 30, selected_slot := none } "2").1.state ≠
        ConversationState.confirming_details ∧
      (fallback_options (fun _ _ => some "evt1")
        { state := .presenting_options,
          available_slots :=
            [⟨540, 570, 30, "Monday, December 16 at 9:00 AM - 9:30 AM"⟩,
             ⟨2040, 2070, 30, "Tuesday, December 17 at 10:00 AM - 10:30 AM"⟩,
             ⟨3480, 3510, 30, "Wednesday, December 18 at 10:00 AM - 10:30 AM"⟩],
          duration_minutes := some 30, selected_slot := none } "2").1.state =
        ConversationState.completed := by
  decide

/-- C8 (amended): in `PresentingOptions` with three presented options and a
calendar that accepts the event, the input `2` selects `options[1]` and
stores it as `selected_slot`, and the fallback state machine moves the
session directly to `Completed` (skipping `ConfirmingDetails`). -/
theorem selecting_two_stores_second_option (a b c : SlotData) (d : Nat) (eid : String) :
    (fallback_options (fun _ _ => some eid)
        { state := .presenting_options, available_slots := [a, b, c],
          duration_minutes := some d, selected_slot := none } "2").1.selected_slot =
        some b ∧
      (fallback_options (fun _ _ => some eid)
        { state := .presenting_options, available_slots := [a, b, c],
          duration_minutes := some d, selected_slot := none } "2").1.state =
        ConversationState.completed :=
  ⟨rfl, rfl⟩

/-- Python `l[-1]` is the last element of a non-empty list. -/
theorem pyIndex_neg_one (l : List α) (h : l ≠ []) : pyIndex l (-1) = l.getLast? := by
  have hlen : 1 ≤ l.length := by
    cases l with
    | nil => exact absurd rfl h
    | cons x xs => simp
  unfold pyIndex
  rw [if_neg (by norm_num), if_pos (by omega)]
  have ht : ((l.length : Int) + (-1)).toNat = l.length - 1 := by omega
  rw [ht, List.getLast?_eq_getElem?, List.get?_eq_getElem?]

/-- C10: in the `PresentingOptions` fallback, an input of `0` parses to
`slot_index = -1`; the only bounds check in `_schedule_meeting` rejects just
`slot_index >= len(available_slots)`, so for any non-empty slot list the
index `-1` passes, Python indexing picks the LAST presented slot, and the
meeting is scheduled for it (session `Completed`) instead of re-prompting. -/
theorem zero_selects_last_slot (slots : List SlotData) (h : slots ≠ [])
    (d : Nat) (eid : String) :
    selectionIndex slots "0" = some (-1) ∧
      ¬ ((slots.length : Int) ≤ (-1 : Int)) ∧
      (fallback_options (fun _ _ => some eid)
          { state := .presenting_options, available_slots := slots,
            duration_minutes := some d, selected_slot := none } "0").1.state =
        ConversationState.completed ∧
      (fallback_options (fun _ _ => some eid)
          { state := .presenting_options, available_slots := slots,
            duration_minutes := some d, selected_slot := none } "0").1.selected_slot =
        slots.getLast? := by
  obtain ⟨y, hy⟩ : ∃ y, slots.getLast? = some y := by
    cases hl : slots.getLast? with
    | some y => exact ⟨y, rfl⟩
    | none => exact absurd (List.getLast?_eq_none_iff.mp hl) h
  have hsel : selectionIndex slots "0" = some (-1) := rfl
  have hrun : fallback_options (fun _ _ => some eid)
      { state := .presenting_options, available_slots := slots,
        duration_minutes := some d, selected_slot := none } "0" =
      ({ state := .completed, available_slots := slots,
         duration_minutes := some d, selected_slot := some y },
       "Perfect! I\x27ve scheduled your meeting for " ++ y.formatted_time ++
         ". Is there anything else I can help you with?") := by
    unfold fallback_options
    rw [hsel]
    unfold schedule_meeting
    dsimp only
    rw [if_neg h, if_neg (by omega), pyIndex_neg_one slots h, hy]
  refine ⟨hsel, by omega, ?_, ?_⟩
  · rw [hrun]
  · rw [hrun, hy]

/-- C10 witness: concrete three-slot instantiation of `zero_selects_last_slot`. -/
theorem zero_selects_last_slot_witness :
    ([⟨540, 570, 30, "slot one"⟩, ⟨600, 630, 30, "slot two"⟩,
        (⟨660, 690, 30, "slot three"⟩ : SlotData)] ≠ []) ∧
      (selectionIndex [⟨540, 570, 30, "slot one"⟩, ⟨600, 630, 30, "slot two"⟩,
          ⟨660, 690, 30, "slot three"⟩] "0" = some (-1) ∧
        ¬ ((([⟨540, 570, 30, "slot one"⟩, ⟨600, 630, 30, "slot two"⟩,
            (⟨660, 690, 30, "slot three"⟩ : SlotData)].length : Int)) ≤ (-1 : Int)) ∧
        (fallback_options (fun _ _ => some "evt1")
            { state := .presenting_options,
              available_slots := [⟨540, 570, 30, "slot one"⟩, ⟨600, 630, 30, "slot two"⟩,
                ⟨660, 690, 30, "slot three"⟩],
              duration_minutes := some 25, selected_slot := none } "0").1.state =
          ConversationState.completed ∧
        (fallback_options (fun _ _ => some "evt1")
            { state := .presenting_options,
              available_slots := [⟨540, 570, 30, "slot one"⟩, ⟨600, 630, 30, "slot two"⟩,
                ⟨660, 690, 30, "slot three"⟩],
              duration_minutes := some 25, selected_slot := none } "0").1.selected_slot =
          [⟨540, 570, 30, "slot one"⟩, ⟨600, 630, 30, "slot two"⟩,
            (⟨660, 690, 30, "slot three"⟩ : SlotData)].getLast?) :=
  ⟨by decide,
    zero_selects_last_slot
      [⟨540, 570, 30, "slot one"⟩, ⟨600, 630, 30, "slot two"⟩, ⟨660, 690, 30, "slot three"⟩]
      (by decide) 25 "evt1"⟩

end SmartScheduler
